import Mathlib

/-!
Shallow embedding of the tz-archiver-cli core (src/processor.py,
src/archiver.py, src/state_manager.py, src/utils/tzkt.py) and verification of
the specification's claims about it.  Python machine state is modelled by
explicit state passing; the wall clock is an integer parameter threaded
through the functions that read it; the external collaborators (the TzKT
index, the Wayback service, the filesystem) are modelled as oracle functions
passed in as arguments.  Fallible operations return `Except`.
-/

namespace TzArchiver

/-! ### Config (src/config.py) -/

def WAYBACK_RATE_LIMIT : ℕ := 12

def IPFS_GATEWAY : String := "https://ipfs.fileship.xyz"

/-! ### RateLimiter (src/processor.py)

The deque of timestamps is a list of integers ordered oldest-first; `now`
stands for `time.time()` at the moment of the call; the window is 60 s. -/

/-- `RateLimiter._cleanup_old_requests`: pop from the front while the head is
strictly older than `now - 60` (the `while ... < cutoff_time: popleft()`
loop, i.e. `dropWhile`). -/
def cleanupOldRequests (now : ℤ) (ts : List ℤ) : List ℤ :=
  ts.dropWhile (fun t => t < now - 60)

/-- `RateLimiter.record_request`: append the current time. -/
def recordRequest (now : ℤ) (ts : List ℤ) : List ℤ :=
  ts ++ [now]

/-- `RateLimiter.get_current_rate`: length after the purge. -/
def getCurrentRate (now : ℤ) (ts : List ℤ) : ℕ :=
  (cleanupOldRequests now ts).length

/-- `RateLimiter.wait_if_needed`: purge; if the window is full, sleep until
the oldest recorded admission leaves the window and purge again.  Sleeping is
modelled by advancing the clock: the result is the new timestamp list
together with the time at which the call returns. -/
def waitIfNeeded (maxRequests : ℕ) (now : ℤ) (ts : List ℤ) : List ℤ × ℤ :=
  let ts1 := cleanupOldRequests now ts
  if maxRequests ≤ ts1.length then
    let waitTime := (ts1.headI + 60) - now
    if 0 < waitTime then
      (cleanupOldRequests (now + waitTime) ts1, now + waitTime)
    else (ts1, now)
  else (ts1, now)

/-! ### ConcurrencyManager (src/archiver.py)

The guarded counter is an integer; each event is one atomic lock-protected
mutation.  `acquire` models the successful check of the polling loop: the
counter is incremented exactly when `current_count < max_concurrent` is
observed, otherwise the attempt leaves the counter unchanged (the caller
keeps polling, and after 120 s gives up with `False`); `release` decrements
only when the counter is positive. -/

inductive CMEvent where
  | acquire : CMEvent
  | release : CMEvent
deriving DecidableEq, Repr

/-- One lock-protected step of `ConcurrencyManager`. -/
def cmStep (maxConcurrent : ℤ) (count : ℤ) : CMEvent → ℤ
  | CMEvent.acquire => if count < maxConcurrent then count + 1 else count
  | CMEvent.release => if 0 < count then count - 1 else count

/-- The counter after an interleaving of acquire/release events, starting
from `current_count = 0`. -/
def cmRun (maxConcurrent : ℤ) (events : List CMEvent) : ℤ :=
  events.foldl (cmStep maxConcurrent) 0

/-! ### WaybackArchiver (src/archiver.py) -/

/-- `ArchiveResult` dataclass. -/
structure ArchiveResult where
  cid : String
  success : Bool
  already_archived : Bool
  message : Option String := none
  error : Option String := none
deriving DecidableEq, Repr

/-- The status object delivered by the wayback client's `on_result`. -/
structure WayBackStatus where
  status : String
  message : Option String := none
deriving DecidableEq, Repr

/-- Outcome of one `wayback.save` call, as observed by `archive_cid`. -/
inductive SaveOutcome where
  /-- `wayback.save` raises. -/
  | exn (msg : String)
  /-- `save_data.job_id is None`: the submission was rejected. -/
  | rejected (msg : Option String)
  /-- The job was accepted and `on_save_end` eventually fires with `st`. -/
  | accepted (st : WayBackStatus)
deriving DecidableEq, Repr

/-- The Wayback service and the concurrency environment of one call, as
oracles: `indexed` is `wayback.indexed` keyed by URL (it may raise);
`slotAcquired` is the result of `concurrency_manager.acquire()` for the call
on the given normalized cid (`false` = 120 s timeout); `save` is the
behaviour of `wayback.save` keyed by URL. -/
structure WaybackEnv where
  indexed : String → Except String Bool
  slotAcquired : String → Bool
  save : String → SaveOutcome

/-- Python `str.replace` on character lists, fuelled to keep the recursion
structural: scan left to right, replacing every occurrence of the (nonempty)
pattern. -/
def replaceCharsAux (pat repl : List Char) : ℕ → List Char → List Char
  | 0, l => l
  | _ + 1, [] => []
  | fuel + 1, c :: rest =>
      if (c :: rest).take pat.length = pat then
        repl ++ replaceCharsAux pat repl fuel ((c :: rest).drop pat.length)
      else c :: replaceCharsAux pat repl fuel rest

/-- Python `str.replace(pat, repl)` for a nonempty pattern (the only way the
source uses it). -/
def pyReplace (s pat repl : String) : String :=
  if pat.data = [] then s
  else ⟨replaceCharsAux pat.data repl.data s.data.length s.data⟩

/-- Python `str.startswith(pre)`. -/
def pyStartsWith (s pre : String) : Bool :=
  decide (s.data.take pre.data.length = pre.data)

/-- `WaybackArchiver._normalize_cid`. -/
def normalizeCid (cid : String) : String :=
  pyReplace cid "ipfs://" ""

/-- `WaybackArchiver._build_ipfs_url`. -/
def buildIpfsUrl (cid : String) : String :=
  IPFS_GATEWAY ++ "/" ++ normalizeCid cid

/-- `WaybackArchiver.is_already_archived`: any exception from the index
check is caught and `False` returned. -/
def isAlreadyArchived (indexed : String → Except String Bool) (cid : String) :
    Bool :=
  match indexed (buildIpfsUrl cid) with
  | Except.ok b => b
  | Except.error _ => false

/-- The classification performed by `on_save_end` in
`WaybackArchiver.archive_cid`: `success` is terminal success, `pending`
is re-marked as success, `error` copies the message into `error`. -/
def classifyStatus (ncid : String) (st : WayBackStatus) : ArchiveResult :=
  let base : ArchiveResult :=
    { cid := ncid, success := st.status == "success",
      already_archived := false, message := st.message, error := none }
  if st.status == "success" then base
  else if st.status == "pending" then { base with success := true }
  else if st.status == "error" then { base with error := st.message }
  else base

/-- Observable effects of one `archive_cid` call: the `ArchiveResult`s
delivered to `on_complete` and the number of `concurrency_manager.release()`
calls made. -/
structure ArchiveCallRecord where
  delivered : List ArchiveResult
  releases : ℕ
deriving DecidableEq, Repr

/-- `WaybackArchiver.archive_cid`.  On slot timeout a failure result is
delivered and nothing is released; on submission exception the slot is
released and a failure result delivered; when `save_data.job_id is None` the
slot is released and no callback is invoked; when the job is accepted,
`on_save_end` delivers the classified result and releases the slot in its
`finally`. -/
def archiveCid (env : WaybackEnv) (cid : String) : ArchiveCallRecord :=
  let ncid := normalizeCid cid
  let url := buildIpfsUrl ncid
  if env.slotAcquired ncid then
    match env.save url with
    | SaveOutcome.accepted st =>
        { delivered := [classifyStatus ncid st], releases := 1 }
    | SaveOutcome.rejected _ =>
        { delivered := [], releases := 1 }
    | SaveOutcome.exn e =>
        let r : ArchiveResult :=
          { cid := ncid, success := false, already_archived := false,
            error := some ("Failed to submit for archiving: " ++ e) }
        { delivered := [r], releases := 1 }
  else
    let r : ArchiveResult :=
      { cid := ncid, success := false, already_archived := false,
        error := some ("Failed to acquire processing slot for " ++ ncid) }
    { delivered := [r], releases := 0 }

/-! ### StateManager (src/state_manager.py) -/

/-- `SpiderState` dataclass (persisted exploration cursor). -/
structure SpiderState where
  current_position : Option ℤ := none
  start_position : Option ℤ := none
  step_size : Option ℤ := none
  total_token_space : Option ℤ := none
  tokens_visited : ℤ := 0
  seed_data : Option String := none
deriving DecidableEq, Repr

/-- `AppState` dataclass. -/
structure AppState where
  processed_cids : Finset String
  error_cids : Finset String
  spider_state : SpiderState := {}
deriving DecidableEq

/-- `StateManager._save_cids_to_file`: the persisted serialization is
`sorted(list(cids))`. -/
def saveCidsToFile (cids : Finset String) : List String :=
  cids.sort (· ≤ ·)

/-- `StateManager.save_processed_cid`: add to the in-memory set, then
persist the whole set. -/
def saveProcessedCid (cid : String) (s : AppState) : AppState :=
  { s with processed_cids := insert cid s.processed_cids }

/-- `StateManager.save_error_cid`. -/
def saveErrorCid (cid : String) (s : AppState) : AppState :=
  { s with error_cids := insert cid s.error_cids }

/-- `StateManager.is_processed`. -/
def isProcessed (cid : String) (s : AppState) : Bool :=
  cid ∈ s.processed_cids

/-! ### TokenProcessor (src/processor.py) -/

/-- The slice of token metadata the processor reads. -/
structure TokenMetadata where
  artifactUri : Option String := none
deriving DecidableEq, Repr

/-- The slice of a TzKT token record the processor reads. -/
structure Token where
  metadata : Option TokenMetadata := none
deriving DecidableEq, Repr

/-- `ProcessingStats` dataclass. -/
structure ProcessingStats where
  total_tokens : ℕ := 0
  processed_cids : ℕ := 0
  skipped_cids : ℕ := 0
  successful_archives : ℕ := 0
  failed_archives : ℕ := 0
  already_archived : ℕ := 0
deriving DecidableEq, Repr

/-- Mutable state of a `TokenProcessor` run: the rate limiter's deque, the
per-call statistics and the application state. -/
structure ProcState where
  rl_times : List ℤ
  stats : ProcessingStats
  app : AppState
deriving DecidableEq

/-- `TokenProcessor._extract_ipfs_cids`: keep tokens whose
`metadata.artifactUri` starts with `ipfs://` and strip the prefix
(`str.replace`). -/
def extractIpfsCids (toks : List Token) : List String :=
  toks.filterMap fun t =>
    match t.metadata with
    | some m =>
        match m.artifactUri with
        | some uri =>
            if pyStartsWith uri "ipfs://" then some (pyReplace uri "ipfs://" "")
            else none
        | none => none
    | none => none

/-- The callback built by `TokenProcessor._create_archive_callback`: on
success mark the cid processed and bump `successful_archives`, otherwise
mark it errored and bump `failed_archives`. -/
def onArchiveComplete (cid : String) (s : ProcState) (r : ArchiveResult) :
    ProcState :=
  if r.success then
    let stats1 := { s.stats with
                    successful_archives := s.stats.successful_archives + 1 }
    { s with app := saveProcessedCid cid s.app, stats := stats1 }
  else
    let stats1 := { s.stats with
                    failed_archives := s.stats.failed_archives + 1 }
    { s with app := saveErrorCid cid s.app, stats := stats1 }

/-- `TokenProcessor._archive_cid_with_rate_limit`: pre-check short-circuits
without touching the rate limiter; otherwise `wait_if_needed`, then
`get_current_rate` (a purge), then `record_request`, then `archive_cid`
with the completion callback (delivery modelled synchronously). -/
def archiveCidWithRateLimit (env : WaybackEnv) (maxRequests : ℕ) (now : ℤ)
    (cid : String) (s : ProcState) : ProcState :=
  if isAlreadyArchived env.indexed cid then
    let stats1 := { s.stats with
                    already_archived := s.stats.already_archived + 1 }
    { s with stats := stats1, app := saveProcessedCid cid s.app }
  else
    let w := waitIfNeeded maxRequests now s.rl_times
    let ts2 := recordRequest w.2 (cleanupOldRequests w.2 w.1)
    let call := archiveCid env cid
    call.delivered.foldl (onArchiveComplete cid) { s with rl_times := ts2 }

/-- `TokenProcessor.process_tokens`: reset the per-call statistics, record
the batch size, extract the cids, then for each cid either skip it (already
processed) or count it and drive it through the rate-limited archive
call. -/
def processTokens (env : WaybackEnv) (maxRequests : ℕ) (now : ℤ)
    (toks : List Token) (s : ProcState) : ProcState :=
  let s0 : ProcState := { s with stats := { total_tokens := toks.length } }
  let cids := extractIpfsCids toks
  cids.foldl
    (fun st cid =>
      if isProcessed cid st.app then
        let stats1 := { st.stats with
                        skipped_cids := st.stats.skipped_cids + 1 }
        { st with stats := stats1 }
      else
        let stats1 := { st.stats with
                        processed_cids := st.stats.processed_cids + 1 }
        archiveCidWithRateLimit env maxRequests now cid { st with stats := stats1 })
    s0

/-! ### SpiderProcessor (src/processor.py) -/

/-- `SpiderProcessor.prime_steps`. -/
def primeSteps : List ℤ :=
  [7919, 12911, 15073, 18443, 20399, 22447, 25013, 27697,
   30089, 32609, 35171, 37549, 40009, 42589, 45121, 47737]

/-- The fields of `SpiderProcessor` once the walk is initialized (resume
path of `_load_spider_state`), all set. -/
structure SpiderWalk where
  total_token_space : ℤ
  current_position : ℤ
  step_size : ℤ
  start_position : ℤ
  tokens_visited : ℤ
deriving DecidableEq, Repr

/-- `SpiderProcessor._get_next_batch_offset` (state already initialized):
return the current position, advance by `step_size` modulo
`total_token_space`, count the visit; when the walk returns to
`start_position` after more than one visit, reset the counter and rotate to
the next prime step size. -/
def getNextBatchOffset (s : SpiderWalk) : ℤ × SpiderWalk :=
  let offset := s.current_position
  let pos1 := (s.current_position + s.step_size) % s.total_token_space
  let visited1 := s.tokens_visited + 1
  let s1 : SpiderWalk :=
    { s with current_position := pos1, tokens_visited := visited1 }
  if pos1 = s.start_position ∧ 1 < visited1 then
    let currentIndex := primeSteps.indexOf s.step_size
    let nextIndex := (currentIndex + 1) % primeSteps.length
    let s2 := { s1 with tokens_visited := 0,
                        step_size := primeSteps.getD nextIndex 0 }
    (offset, s2)
  else (offset, s1)

/-- The offsets of `n` successive `_get_next_batch_offset` calls. -/
def nextOffsets : ℕ → SpiderWalk → List ℤ
  | 0, _ => []
  | n + 1, s =>
      let r := getNextBatchOffset s
      r.1 :: nextOffsets n r.2

/-! ### TzKT pagination (src/utils/tzkt.py) -/

/-- `API_MAX`. -/
def API_MAX : ℕ := 10000

/-- One response of the TzKT API to a page request, as observed by
`_fetch_paginated_tokens`. -/
inductive TzktResp where
  /-- the request, `raise_for_status` or `.json()` raises. -/
  | exn
  /-- the JSON value is not a list: `_parse_tokens_list` returns `None`. -/
  | notList
  /-- a JSON list; `some` items parse into tokens, `none` items are
  malformed and skipped by `_parse_tokens_list`. -/
  | page (data : List (Option String))
deriving DecidableEq

/-- `_fetch_paginated_tokens`: the loop runs while `remaining > 0`, requests
`min(API_MAX, remaining)` records at the current offset, breaks on an
exception (returning `None`), on an unparsable or parsed-empty page, or on a
short page, and otherwise advances `offset` and decreases `remaining` by the
raw page length. -/
def fetchPaginatedTokens (api : ℕ → ℤ → TzktResp) :
    ℕ → ℤ → List String → Option (List String)
  | 0, _, results => some results
  | r + 1, currentOffset, results =>
      let batchLimit := min API_MAX (r + 1)
      match api batchLimit currentOffset with
      | TzktResp.exn => none
      | TzktResp.notList => some results
      | TzktResp.page data =>
          let toks := data.filterMap id
          if h : toks.isEmpty then some results
          else if data.length < batchLimit then some (results ++ toks)
          else
            fetchPaginatedTokens api (r + 1 - data.length)
              (currentOffset + data.length) (results ++ toks)
  termination_by r _ _ => r
  decreasing_by
    have hd : data ≠ [] := by
      intro hnil
      subst hnil
      simp at h
      exact h rfl
    have hlen : 0 < data.length := List.length_pos.mpr hd
    omega

/-- A well-behaved TzKT API: every request is answered with a JSON list of
well-formed records, no longer than the requested page size. -/
def goodApi (api : ℕ → ℤ → TzktResp) : Prop :=
  ∀ n off, ∃ data : List (Option String),
    api n off = TzktResp.page data ∧ data.length ≤ n ∧ ∀ x ∈ data, x.isSome

/-! ### Concrete instances used by the claims -/

/-- Initial processor state: empty rate-limiter deque, fresh statistics,
empty completion sets. -/
def procInit : ProcState :=
  { rl_times := [], stats := {},
    app := { processed_cids := ∅, error_cids := ∅ } }

/-- Environment in which the pre-check reports not archived, slot
acquisition times out, and (unreachably) submissions are rejected. -/
def envSlotTimeout : WaybackEnv :=
  { indexed := fun _ => Except.ok false,
    slotAcquired := fun _ => false,
    save := fun _ => SaveOutcome.rejected none }

/-- Environment in which the pre-check reports not archived, a slot is
acquired, and the submission is rejected (`job_id is None`). -/
def envRejected : WaybackEnv :=
  { indexed := fun _ => Except.ok false,
    slotAcquired := fun _ => true,
    save := fun _ => SaveOutcome.rejected none }

/-- Environment for the three-token batch: nothing pre-archived, slots
always available, the submission for `CIDC` completes with `error`, every
other submission completes with `success`. -/
def envBatch3 : WaybackEnv :=
  { indexed := fun _ => Except.ok false,
    slotAcquired := fun _ => true,
    save := fun url =>
      if url = buildIpfsUrl "CIDC" then
        SaveOutcome.accepted { status := "error", message := some "failed" }
      else SaveOutcome.accepted { status := "success" } }

/-- A token carrying `ipfs://CIDA`. -/
def tokenA : Token := { metadata := some { artifactUri := some "ipfs://CIDA" } }

/-- A token carrying `ipfs://CIDB`. -/
def tokenB : Token := { metadata := some { artifactUri := some "ipfs://CIDB" } }

/-- A token carrying `ipfs://CIDC`. -/
def tokenC : Token := { metadata := some { artifactUri := some "ipfs://CIDC" } }

/-- Processor state in which `CIDA` is already marked processed. -/
def stateBatch3 : ProcState :=
  { rl_times := [], stats := {},
    app := { processed_cids := {"CIDA"}, error_cids := ∅ } }

/-- An API whose every response is an empty page. -/
def apiEmptyPages : ℕ → ℤ → TzktResp := fun _ _ => TzktResp.page []

/-- An always-failing archive-index oracle. -/
def indexedAlwaysErr : String → Except String Bool :=
  fun _ => Except.error "network down"

/-- Environment whose index check always raises, slots available,
submissions succeed. -/
def envIndexErr : WaybackEnv :=
  { indexed := indexedAlwaysErr,
    slotAcquired := fun _ => true,
    save := fun _ => SaveOutcome.accepted { status := "success" } }

end TzArchiver

namespace TzArchiver

lemma cmStep_bounds (C count : ℤ) (e : CMEvent)
    (h0 : 0 ≤ count) (hC : count ≤ C) :
    0 ≤ cmStep C count e ∧ cmStep C count e ≤ C := by
  cases e with
  | acquire =>
    unfold cmStep
    by_cases h : count < C
    · simp only [if_pos h]; omega
    · simp only [if_neg h]; omega
  | release =>
    unfold cmStep
    by_cases h : 0 < count
    · simp only [if_pos h]; omega
    · simp only [if_neg h]; omega

lemma cmRun_foldl_bounds (C : ℤ) (events : List CMEvent) :
    ∀ count : ℤ, 0 ≤ count → count ≤ C →
      0 ≤ events.foldl (cmStep C) count ∧
        events.foldl (cmStep C) count ≤ C := by
  induction events with
  | nil => intro count h0 hC; simpa using ⟨h0, hC⟩
  | cons e rest ih =>
    intro count h0 hC
    have hstep := cmStep_bounds C count e h0 hC
    simpa using ih (cmStep C count e) hstep.1 hstep.2

lemma sorted_dropWhile_lt_eq_filter (c : ℤ) (ts : List ℤ)
    (hs : List.Sorted (· ≤ ·) ts) :
    ts.dropWhile (fun t => t < c) = ts.filter (fun t => decide (c ≤ t)) := by
  induction ts with
  | nil => rfl
  | cons a l ih =>
    rw [List.sorted_cons] at hs
    by_cases h : a < c
    · rw [List.dropWhile_cons_of_pos (by simpa using h),
        List.filter_cons_of_neg (by simpa using not_le.mpr h)]
      exact ih hs.2
    · rw [List.dropWhile_cons_of_neg (by simpa using h),
        List.filter_cons_of_pos (by simpa using not_lt.mp h)]
      have hall : ∀ b ∈ l, (fun t => decide (c ≤ t)) b = true := by
        intro b hb
        simpa using le_trans (not_lt.mp h) (hs.1 b hb)
      rw [List.filter_eq_self.mpr hall]

lemma onArchiveComplete_rl_times (cid : String) (s : ProcState)
    (r : ArchiveResult) :
    (onArchiveComplete cid s r).rl_times = s.rl_times := by
  unfold onArchiveComplete
  by_cases h : r.success = true
  · simp only [if_pos h]
  · simp only [if_neg h]

lemma foldl_onArchiveComplete_rl_times (cid : String) (rs : List ArchiveResult) :
    ∀ s : ProcState, (rs.foldl (onArchiveComplete cid) s).rl_times = s.rl_times := by
  induction rs with
  | nil => intro s; rfl
  | cons r rest ih =>
    intro s
    simpa [ih] using onArchiveComplete_rl_times cid s r

end TzArchiver

open TzArchiver

/-- Claim C5: for every sequence of interleaved acquire() and release()
calls on a `ConcurrencyManager` of capacity C ≥ 0 started at zero, the slot
counter always satisfies 0 ≤ count ≤ C: acquire increments only when
count < C, and release never drives the counter below zero. -/
theorem concurrency_counter_bounded (C : ℤ) (events : List CMEvent)
    (hC : 0 ≤ C) : 0 ≤ cmRun C events ∧ cmRun C events ≤ C := by
  unfold cmRun
  exact cmRun_foldl_bounds C events 0 le_rfl hC

/-- Witness for claim C5 at the default capacity 4 and a concrete
interleaving. -/
theorem concurrency_counter_bounded_witness :
    (0 : ℤ) ≤ 4 ∧
      (0 ≤ cmRun 4 [CMEvent.acquire, CMEvent.acquire, CMEvent.release,
          CMEvent.acquire, CMEvent.release, CMEvent.release, CMEvent.release] ∧
        cmRun 4 [CMEvent.acquire, CMEvent.acquire, CMEvent.release,
          CMEvent.acquire, CMEvent.release, CMEvent.release, CMEvent.release] ≤ 4) :=
  ⟨by decide,
    concurrency_counter_bounded 4
      [CMEvent.acquire, CMEvent.acquire, CMEvent.release,
        CMEvent.acquire, CMEvent.release, CMEvent.release, CMEvent.release]
      (by decide)⟩

/-- Claim C6: on every (chronologically ordered) state of the rate
limiter's timestamp deque, the window purge removes exactly the timestamps
strictly older than `now - 60` (strict `<` comparison), so a timestamp lying
exactly at the 60-second boundary is retained and still counted against the
limit. -/
theorem ratelimiter_purge_strictly_older (now : ℤ) (ts : List ℤ)
    (hs : List.Sorted (· ≤ ·) ts) :
    cleanupOldRequests now ts = ts.filter (fun t => decide (now - 60 ≤ t)) ∧
      ((now - 60) ∈ ts →
        (now - 60) ∈ cleanupOldRequests now ts ∧ 0 < getCurrentRate now ts) := by
  have hf : cleanupOldRequests now ts
      = ts.filter (fun t => decide (now - 60 ≤ t)) :=
    sorted_dropWhile_lt_eq_filter (now - 60) ts hs
  refine ⟨hf, fun hmem => ?_⟩
  have hmem' : (now - 60) ∈ cleanupOldRequests now ts := by
    rw [hf, List.mem_filter]
    exact ⟨hmem, by simp⟩
  exact ⟨hmem', by
    unfold getCurrentRate
    exact List.length_pos.mpr (List.ne_nil_of_mem hmem')⟩

/-- Witness for claim C6 at `now = 60` and the deque `[0, 30]`: the
timestamp 0 lies exactly at the boundary and is retained and counted. -/
theorem ratelimiter_purge_strictly_older_witness :
    List.Sorted (· ≤ ·) ([0, 30] : List ℤ) ∧
      (cleanupOldRequests 60 [0, 30]
          = List.filter (fun t => decide ((60 : ℤ) - 60 ≤ t)) [0, 30] ∧
        ((60 : ℤ) - 60 ∈ ([0, 30] : List ℤ) →
          (60 : ℤ) - 60 ∈ cleanupOldRequests 60 [0, 30] ∧
            0 < getCurrentRate 60 [0, 30])) :=
  ⟨by decide, ratelimiter_purge_strictly_older 60 [0, 30] (by decide)⟩

/-- Claim C1 counterexample: the source's next-offset operation carries no
`(seed, iteration_count, is_positive_direction)` cursor and no bidirectional
walk; from the concrete persisted cursor whose position is 1000 (smallest
prime step 7919, space 6,000,000), six successive calls return
1000, 8919, 16838, 24757, 32676, 40595 — not 1000, 1100, 900, 1200, 800,
1300. -/
theorem spider_offsets_not_bidirectional :
    nextOffsets 6 ⟨6000000, 1000, 7919, 0, 0⟩
        = [1000, 8919, 16838, 24757, 32676, 40595] ∧
      nextOffsets 6 ⟨6000000, 1000, 7919, 0, 0⟩
        ≠ [1000, 1100, 900, 1200, 800, 1300] := by
  constructor
  · decide
  · decide

/-- Claim C1 (amended): the next-offset operation is a deterministic modular
prime-step walk: each call returns the stored `current_position` and
advances it by `step_size` modulo `total_token_space`, so the offset
sequence from a fixed cursor is fully determined; from the cursor with
position 1000, step 7919 and space 6,000,000 the first six offsets are
1000, 8919, 16838, 24757, 32676, 40595. -/
theorem spider_offsets_prime_step_walk :
    (∀ s : SpiderWalk,
        (getNextBatchOffset s).1 = s.current_position ∧
          (getNextBatchOffset s).2.current_position
            = (s.current_position + s.step_size) % s.total_token_space) ∧
      nextOffsets 6 ⟨6000000, 1000, 7919, 0, 0⟩
        = [1000, 8919, 16838, 24757, 32676, 40595] := by
  constructor
  · intro s
    constructor
    · dsimp only [getNextBatchOffset]
      split <;> rfl
    · dsimp only [getNextBatchOffset]
      split <;> rfl
  · decide

/-- Claim C2 counterexample: with the pre-check reporting not archived and
slot acquisition timing out, the call does deliver a failed result, but the
rate limiter's deque is changed: the admission was recorded before the
acquisition attempt. -/
theorem slot_timeout_rate_state_cex :
    isAlreadyArchived envSlotTimeout.indexed "QmX" = false ∧
      envSlotTimeout.slotAcquired (normalizeCid "QmX") = false ∧
      (archiveCidWithRateLimit envSlotTimeout 12 100 "QmX" procInit).stats.failed_archives
        = 1 ∧
      (archiveCidWithRateLimit envSlotTimeout 12 100 "QmX" procInit).rl_times
        ≠ procInit.rl_times := by
  refine ⟨rfl, rfl, rfl, ?_⟩
  decide

/-- Claim C2 (amended): for every admission of an id that is not already
archived, if the concurrency-slot acquisition times out then a failed
ArchiveResult is delivered (the id is marked errored and `failed_archives`
bumped), but the rate-limit admission has already been recorded before the
acquisition attempt: the deque ends as the purged deque plus the new
timestamp; only the already-archived short-circuit skips the record. -/
theorem slot_timeout_failed_result_recorded (env : WaybackEnv)
    (maxRequests : ℕ) (now : ℤ) (cid : String) (s : ProcState)
    (hidx : isAlreadyArchived env.indexed cid = false)
    (hslot : env.slotAcquired (normalizeCid cid) = false) :
    (archiveCidWithRateLimit env maxRequests now cid s).rl_times
        = recordRequest (waitIfNeeded maxRequests now s.rl_times).2
            (cleanupOldRequests (waitIfNeeded maxRequests now s.rl_times).2
              (waitIfNeeded maxRequests now s.rl_times).1) ∧
      (archiveCidWithRateLimit env maxRequests now cid s).stats.failed_archives
        = s.stats.failed_archives + 1 ∧
      (archiveCidWithRateLimit env maxRequests now cid s).app.error_cids
        = insert cid s.app.error_cids := by
  unfold archiveCidWithRateLimit
  simp only [hidx, Bool.false_eq_true, if_false]
  unfold archiveCid
  simp only [hslot, Bool.false_eq_true, if_false]
  simp [onArchiveComplete, saveErrorCid]

/-- Witness for the amended claim C2 at a concrete timed-out call. -/
theorem slot_timeout_failed_result_recorded_witness :
    isAlreadyArchived envSlotTimeout.indexed "QmX" = false ∧
      envSlotTimeout.slotAcquired (normalizeCid "QmX") = false ∧
      ((archiveCidWithRateLimit envSlotTimeout 12 100 "QmX" procInit).rl_times
          = recordRequest (waitIfNeeded 12 100 procInit.rl_times).2
              (cleanupOldRequests (waitIfNeeded 12 100 procInit.rl_times).2
                (waitIfNeeded 12 100 procInit.rl_times).1) ∧
        (archiveCidWithRateLimit envSlotTimeout 12 100 "QmX" procInit).stats.failed_archives
          = procInit.stats.failed_archives + 1 ∧
        (archiveCidWithRateLimit envSlotTimeout 12 100 "QmX" procInit).app.error_cids
          = insert "QmX" procInit.app.error_cids) :=
  ⟨rfl, rfl,
    slot_timeout_failed_result_recorded envSlotTimeout 12 100 "QmX" procInit
      rfl rfl⟩

/-- Claim C3 (code bug): when the submission is rejected by the service
(`save_data.job_id is None`), `archive_cid` releases the slot but never
invokes the completion callback, so zero ArchiveResults are delivered —
while the timeout, exception and accepted paths each deliver exactly one. -/
theorem archive_rejected_no_result :
    (archiveCid envRejected "QmY").delivered = [] ∧
      (archiveCid envRejected "QmY").releases = 1 ∧
      (∀ st : WayBackStatus,
        (archiveCid { envRejected with
            save := fun _ => SaveOutcome.accepted st } "QmY").delivered.length
          = 1) ∧
      (archiveCid { envRejected with
          save := fun _ => SaveOutcome.exn "boom" } "QmY").delivered.length
        = 1 ∧
      (archiveCid { envRejected with
          slotAcquired := fun _ => false } "QmY").delivered.length = 1 :=
  ⟨rfl, rfl, fun _ => rfl, rfl, rfl⟩

/-- Claim C4: processing a batch of 3 ipfs:// tokens in which one extracted
cid is already in the processed set, one submission completes with
`success` and one with `error` yields total=3, processed=2, skipped=1,
success=1, failed=1, already_archived=0, and the per-call statistics are
reset at the start of the call (a dirty incoming stats record does not leak
into the result). -/
theorem process_batch3_stats :
    (processTokens envBatch3 WAYBACK_RATE_LIMIT 0 [tokenA, tokenB, tokenC]
          stateBatch3).stats
        = { total_tokens := 3, processed_cids := 2, skipped_cids := 1,
            successful_archives := 1, failed_archives := 1,
            already_archived := 0 } ∧
      (processTokens envBatch3 WAYBACK_RATE_LIMIT 0 [tokenA, tokenB, tokenC]
            { stateBatch3 with stats :=
                { total_tokens := 9, processed_cids := 9, skipped_cids := 9,
                  successful_archives := 9, failed_archives := 9,
                  already_archived := 9 } }).stats
        = { total_tokens := 3, processed_cids := 2, skipped_cids := 1,
            successful_archives := 1, failed_archives := 1,
            already_archived := 0 } :=
  ⟨by decide, by decide⟩

namespace TzArchiver

end TzArchiver

/-- Claim C8: marking an id processed is idempotent — a second
`mark_processed(id)` leaves the in-memory state unchanged, and the
persisted serialization (`sorted(list(set))`) contains exactly one
occurrence of the id. -/
theorem mark_processed_idempotent (s : AppState) (cid : String) :
    saveProcessedCid cid (saveProcessedCid cid s) = saveProcessedCid cid s ∧
      (saveCidsToFile
          (saveProcessedCid cid (saveProcessedCid cid s)).processed_cids).count
          cid
        = 1 := by
  constructor
  · simp [saveProcessedCid, Finset.insert_idem]
  · have hnd :
        (saveCidsToFile
          (saveProcessedCid cid (saveProcessedCid cid s)).processed_cids).Nodup :=
      Finset.sort_nodup (· ≤ ·) _
    have hmem :
        cid ∈ saveCidsToFile
          (saveProcessedCid cid (saveProcessedCid cid s)).processed_cids := by
      unfold saveCidsToFile
      rw [Finset.mem_sort]
      simp [saveProcessedCid]
    exact List.count_eq_one_of_mem hnd hmem

namespace TzArchiver

lemma filterMap_id_length_of_isSome (l : List (Option String))
    (h : ∀ x ∈ l, x.isSome) : (l.filterMap id).length = l.length := by
  induction l with
  | nil => rfl
  | cons a t ih =>
    cases a with
    | none => exact absurd (h none (by simp)) (by simp)
    | some v =>
      have ht : ∀ x ∈ t, x.isSome := fun x hx => h x (by simp [hx])
      simp [ih ht]

end TzArchiver

/-- Claim C9: for every well-behaved paginated index query, each page is
requested with size `min(10000, remaining)`, and the loop continues exactly
while the returned page's size equals the requested page size (advancing the
offset and decreasing the remaining count by that size), stopping on a short
page or an empty page. -/
theorem pagination_page_size_and_continuation (api : ℕ → ℤ → TzktResp)
    (remaining : ℕ) (offset : ℤ) (results : List String)
    (hapi : goodApi api) (hpos : 0 < remaining) :
    ∃ data : List (Option String),
      api (min API_MAX remaining) offset = TzktResp.page data ∧
        data.length ≤ min API_MAX remaining ∧
        fetchPaginatedTokens api remaining offset results
          = if data.length = min API_MAX remaining ∧ data ≠ [] then
              fetchPaginatedTokens api (remaining - min API_MAX remaining)
                (offset + (min API_MAX remaining : ℕ))
                (results ++ data.filterMap id)
            else some (results ++ data.filterMap id) := by
  obtain ⟨data, hd, hlen, hsome⟩ := hapi (min API_MAX remaining) offset
  refine ⟨data, hd, hlen, ?_⟩
  obtain ⟨r, rfl⟩ : ∃ r, remaining = r + 1 :=
    ⟨remaining - 1, by omega⟩
  have hflen : (data.filterMap id).length = data.length :=
    filterMap_id_length_of_isSome data hsome
  by_cases hnil : data = []
  · subst hnil
    simp [fetchPaginatedTokens, hd]
  · have hne : ¬(data.filterMap id).isEmpty = true := by
      rw [List.isEmpty_iff]
      intro hfe
      have hzero : data.length = 0 := by rw [← hflen, hfe]; rfl
      exact hnil (List.length_eq_zero.mp hzero)
    simp only [fetchPaginatedTokens, hd]
    rw [dif_neg hne]
    by_cases hshort : data.length < min API_MAX (r + 1)
    · rw [if_pos hshort, if_neg (fun hc => absurd hc.1 (by omega))]
    · have heq : data.length = min API_MAX (r + 1) := by omega
      rw [if_neg hshort, if_pos ⟨heq, hnil⟩, heq]

/-- Witness for claim C9 with an API answering every request with an empty
page, `remaining = 5`: the loop stops at once on the empty page. -/
theorem pagination_page_size_and_continuation_witness :
    goodApi apiEmptyPages ∧ 0 < 5 ∧
      (∃ data : List (Option String),
        apiEmptyPages (min API_MAX 5) 0 = TzktResp.page data ∧
          data.length ≤ min API_MAX 5 ∧
          fetchPaginatedTokens apiEmptyPages 5 0 []
            = if data.length = min API_MAX 5 ∧ data ≠ [] then
                fetchPaginatedTokens apiEmptyPages (5 - min API_MAX 5)
                  ((0 : ℤ) + (min API_MAX 5 : ℕ)) ([] ++ data.filterMap id)
              else some ([] ++ data.filterMap id)) :=
  ⟨fun _ _ => ⟨[], rfl, by simp, by simp⟩, by decide,
    pagination_page_size_and_continuation apiEmptyPages 5 0 []
      (fun _ _ => ⟨[], rfl, by simp, by simp⟩) (by decide)⟩

/-- Claim C10: if the pre-submission archive-index check raises, the
exception is caught and `is_already_archived` returns `False` instead of
propagating, so the rate-limited call proceeds to record a rate-limit
admission and attempt submission. -/
theorem index_check_error_caught_proceeds (env : WaybackEnv)
    (maxRequests : ℕ) (now : ℤ) (cid : String) (s : ProcState) (err : String)
    (hidx : env.indexed (buildIpfsUrl cid) = Except.error err) :
    isAlreadyArchived env.indexed cid = false ∧
      (archiveCidWithRateLimit env maxRequests now cid s).rl_times
        = recordRequest (waitIfNeeded maxRequests now s.rl_times).2
            (cleanupOldRequests (waitIfNeeded maxRequests now s.rl_times).2
              (waitIfNeeded maxRequests now s.rl_times).1) := by
  have hfalse : isAlreadyArchived env.indexed cid = false := by
    unfold isAlreadyArchived
    rw [hidx]
  refine ⟨hfalse, ?_⟩
  unfold archiveCidWithRateLimit
  simp only [hfalse, Bool.false_eq_true, if_false]
  rw [foldl_onArchiveComplete_rl_times]

/-- Witness for claim C10 at a concrete failing index oracle. -/
theorem index_check_error_caught_proceeds_witness :
    envIndexErr.indexed (buildIpfsUrl "QmZ") = Except.error "network down" ∧
      (isAlreadyArchived envIndexErr.indexed "QmZ" = false ∧
        (archiveCidWithRateLimit envIndexErr 12 100 "QmZ" procInit).rl_times
          = recordRequest (waitIfNeeded 12 100 procInit.rl_times).2
              (cleanupOldRequests (waitIfNeeded 12 100 procInit.rl_times).2
                (waitIfNeeded 12 100 procInit.rl_times).1)) :=
  ⟨rfl,
    index_check_error_caught_proceeds envIndexErr 12 100 "QmZ" procInit
      "network down" rfl⟩
